import Mathlib

/-!
Verification of the companies resource handler (src/routes/companies.js) of
express-jobly.  The five route handlers are embedded as pure functions over an
explicit store; each handler returns its HTTP-level result, the list of calls
it made into the persistence collaborator, and the resulting store.  External
collaborators that are not part of the sources (the JSON schemas, the
`ensureLoggedIn` middleware, and the `Company` model) are modelled from the
specification and marked as such.
-/

namespace Jobly

/-- Payload carried by a `BadRequestError`: the source constructs it either
from a single string (the coercion messages) or from a list of validator
error messages. -/
inductive ErrMsg
  | str (s : String)
  | list (l : List String)
deriving DecidableEq

/-- Error taxonomy of the error-handling design: `BadRequest`, `Unauthorized`,
`NotFound`, `Conflict`. -/
inductive AppError
  | badRequest (m : ErrMsg)
  | unauthorized
  | notFound
  | conflict
deriving DecidableEq

/-- A job row as attached to a single-company fetch:
`{ id, title, salary, equity }`. -/
structure Job where
  id : Nat
  title : String
  salary : Option Nat
  equity : Option Int
deriving DecidableEq

/-- A company record: `{ handle, name, description, numEmployees, logoUrl }`,
with `handle` the unique key. -/
structure CompanyRecord where
  handle : String
  name : String
  description : Option String
  numEmployees : Option Nat
  logoUrl : Option String
deriving DecidableEq

/-- The backing store owned by the persistence collaborator: company rows and
job rows keyed by company handle. -/
structure Store where
  companies : List CompanyRecord
  jobs : List (String × Job)
deriving DecidableEq

/-- Request body for `POST /companies` before validation: each schema field
may be present or absent. -/
structure CompanyBody where
  handle : Option String
  name : Option String
  description : Option String
  numEmployees : Option Nat
  logoUrl : Option String
deriving DecidableEq

/-- Request body for `PATCH /companies/:handle` before validation. -/
structure PatchBody where
  handle : Option String
  name : Option String
  description : Option String
  numEmployees : Option Nat
  logoUrl : Option String
deriving DecidableEq

/-- The raw query string of `GET /companies`: every value arrives as text. -/
structure Query where
  nameLike : Option String
  minEmployees : Option String
  maxEmployees : Option String
deriving DecidableEq

/-- A query value after the in-place coercion step: still a string (when the
truthiness guard skipped it) or a coerced integer. -/
inductive QueryVal
  | vstr (s : String)
  | vnum (n : Int)
deriving DecidableEq

/-- The query object after the handler mutated the bounds in place; this is
what schema validation sees and what `Company.findAll` receives. -/
structure MQuery where
  nameLike : Option String
  minEmployees : Option QueryVal
  maxEmployees : Option QueryVal
deriving DecidableEq

/-! ## JavaScript `parseInt` semantics -/

/-- Whitespace characters skipped by JavaScript `parseInt`. -/
def jsWhitespace (c : Char) : Bool :=
  c = ' ' || c = '\t' || c = '\n' || c = '\r' || c = '\x0b' || c = '\x0c'

/-- Value of a maximal run of decimal digits. -/
def decDigitsVal (ds : List Char) : Nat :=
  ds.foldl (fun a c => a * 10 + (c.toNat - 48)) 0

/-- Hexadecimal digit recognizer for the `0x` branch of `parseInt`. -/
def isHexDigitChar (c : Char) : Bool :=
  c.isDigit || ('a' ≤ c && c ≤ 'f') || ('A' ≤ c && c ≤ 'F')

/-- Value of one hexadecimal digit. -/
def hexDigitVal (c : Char) : Nat :=
  if c.isDigit then c.toNat - 48
  else if 'a' ≤ c && c ≤ 'f' then c.toNat - 87
  else c.toNat - 55

/-- Value of a maximal run of hexadecimal digits. -/
def hexDigitsVal (ds : List Char) : Nat :=
  ds.foldl (fun a c => a * 16 + hexDigitVal c) 0

/-- JavaScript `parseInt(s)` (radix argument omitted): skip leading
whitespace, read an optional sign, use base 16 after a `0x`/`0X` prefix and
base 10 otherwise, consume the maximal digit run, and yield `NaN` (here
`none`) when that run is empty. -/
def parseIntJS (s : String) : Option Int :=
  let cs := s.toList.dropWhile jsWhitespace
  let sr : Int × List Char :=
    match cs with
    | '-' :: t => (-1, t)
    | '+' :: t => (1, t)
    | _ => (1, cs)
  match sr.2 with
  | '0' :: 'x' :: t =>
    let ds := t.takeWhile isHexDigitChar
    if ds.isEmpty then none else some (sr.1 * (hexDigitsVal ds : Int))
  | '0' :: 'X' :: t =>
    let ds := t.takeWhile isHexDigitChar
    if ds.isEmpty then none else some (sr.1 * (hexDigitsVal ds : Int))
  | rest =>
    let ds := rest.takeWhile Char.isDigit
    if ds.isEmpty then none else some (sr.1 * (decDigitsVal ds : Int))

/-! ## Spec-modelled collaborators -/

/-- Modelled from the spec: the authorization collaborator (the
`ensureLoggedIn` middleware is not in the sources).  A request carrying
credentials recognized by the collaborator passes; absence or invalidity
produces an `Unauthorized` failure before any validation or persistence
work.  The request is abstracted to the one bit the gate inspects. -/
def ensureLoggedIn (loggedIn : Bool) : Except AppError Unit :=
  if loggedIn then Except.ok () else Except.error AppError.unauthorized

/-- Modelled from the spec: the "new company" schema (companyNew.json is not
in the sources).  `handle` and `name` are required (end-to-end scenario A
creates a company from `handle`, `name`, `numEmployees` alone, so the other
fields are optional); typed fields carry their types by construction.
Returns the ordered list of validator error messages, empty when valid. -/
def companyNewValidate (b : CompanyBody) : List String :=
  (if b.handle.isNone then ["instance requires property \"handle\""] else []) ++
  (if b.name.isNone then ["instance requires property \"name\""] else [])

/-- Modelled from the spec: the "update" schema (companyUpdate.json is not in
the sources) rejects presence of `handle` (handle is immutable) and accepts
any subset of `name`, `description`, `numEmployees`, `logoUrl`, none of them
required. -/
def companyUpdateValidate (b : PatchBody) : List String :=
  if b.handle.isSome then
    ["instance additionalProperty \"handle\" exists in instance when not allowed"]
  else []

/-- Modelled from the spec: the per-bound part of the search-filter schema
(companySearchFilters.json is not in the sources): each bound, when present,
must be an integer and at least 0. -/
def boundTypeErrors (field : String) (v : Option QueryVal) : List String :=
  match v with
  | none => []
  | some (QueryVal.vstr _) => [field ++ " is not of a type(s) integer"]
  | some (QueryVal.vnum n) =>
    if n < 0 then [field ++ " must be greater than or equal to 0"] else []

/-- Modelled from the spec: the search-filter schema applied to the mutated
query object, types checked per bound (`nameLike` is a string by
construction). -/
def searchFiltersValidate (m : MQuery) : List String :=
  boundTypeErrors "instance.minEmployees" m.minEmployees ++
  boundTypeErrors "instance.maxEmployees" m.maxEmployees

/-- The company record built by the persistence layer from a valid new-company
body (`handle` and `name` are guaranteed present by validation). -/
def CompanyBody.toRecord (b : CompanyBody) : CompanyRecord :=
  { handle := b.handle.getD ""
    name := b.name.getD ""
    description := b.description
    numEmployees := b.numEmployees
    logoUrl := b.logoUrl }

/-- Modelled from the spec: persistence `Company.create` (the model layer is
not in the sources): fails with a Conflict-style error when the handle
already exists, otherwise inserts the record. -/
def Company.create (b : CompanyBody) (st : Store) : Except AppError (CompanyRecord × Store) :=
  if st.companies.any (fun c => c.handle == b.handle.getD "") then
    Except.error AppError.conflict
  else
    let c := b.toRecord
    Except.ok (c, { st with companies := st.companies ++ [c] })

/-- Case-insensitive substring test used by the `nameLike` filter. -/
def containsCI (hay pat : String) : Bool :=
  let h := hay.toLower
  let p := pat.toLower
  p == "" || (h.splitOn p).length ≥ 2

/-- Modelled from the spec: whether one company row satisfies the normalized
search filters (a bound left as a string never reaches this point on the
success path). -/
def matchesFilters (m : MQuery) (c : CompanyRecord) : Bool :=
  (match m.nameLike with
   | some p => containsCI c.name p
   | none => true) &&
  (match m.minEmployees with
   | some (QueryVal.vnum n) =>
     (match c.numEmployees with
      | some k => decide (n ≤ (k : Int))
      | none => false)
   | _ => true) &&
  (match m.maxEmployees with
   | some (QueryVal.vnum n) =>
     (match c.numEmployees with
      | some k => decide ((k : Int) ≤ n)
      | none => false)
   | _ => true)

/-- Modelled from the spec: persistence `Company.findAll(filters)`: the
ordered sequence of company rows satisfying the filters (an empty filter
object means no filtering). -/
def Company.findAll (m : MQuery) (st : Store) : List CompanyRecord :=
  st.companies.filter (matchesFilters m)

/-- Modelled from the spec: persistence `Company.get(handle)`: the matching
record together with its jobs, or a `NotFound` failure when no record
matches. -/
def Company.get (h : String) (st : Store) : Except AppError (CompanyRecord × List Job) :=
  match st.companies.find? (fun c => c.handle == h) with
  | some c => Except.ok (c, (st.jobs.filter (fun j => j.1 == h)).map (fun j => j.2))
  | none => Except.error AppError.notFound

/-- Applying a validated patch to an existing record: a present field
overwrites, an absent field keeps the stored value. -/
def applyPatch (b : PatchBody) (c : CompanyRecord) : CompanyRecord :=
  { c with
    name := b.name.getD c.name
    description := match b.description with
      | some d => some d
      | none => c.description
    numEmployees := match b.numEmployees with
      | some n => some n
      | none => c.numEmployees
    logoUrl := match b.logoUrl with
      | some u => some u
      | none => c.logoUrl }

/-- Modelled from the spec: persistence `Company.update(handle, patch)`:
updates the matching record, or fails with `NotFound` when the handle does
not exist. -/
def Company.update (h : String) (b : PatchBody) (st : Store) : Except AppError (CompanyRecord × Store) :=
  match st.companies.find? (fun c => c.handle == h) with
  | some c =>
    let c' := applyPatch b c
    Except.ok (c', { st with companies := st.companies.map (fun x => if x.handle == h then c' else x) })
  | none => Except.error AppError.notFound

/-- Modelled from the spec: persistence `Company.remove(handle)`: deletes the
matching record, or fails with `NotFound` when the handle does not exist —
also when it was already removed. -/
def Company.remove (h : String) (st : Store) : Except AppError Store :=
  if st.companies.any (fun c => c.handle == h) then
    Except.ok { st with companies := st.companies.filter (fun c => c.handle != h) }
  else Except.error AppError.notFound

/-! ## The route handlers (from src/routes/companies.js) -/

/-- A call made into the persistence collaborator. -/
inductive ModelCall
  | create (body : CompanyBody)
  | findAll (filters : MQuery)
  | get (handle : String)
  | update (handle : String) (patch : PatchBody)
  | remove (handle : String)
deriving DecidableEq

/-- A successful response, one shape per route. -/
inductive Response
  | created (c : CompanyRecord)
  | companyList (cs : List CompanyRecord)
  | companyOne (c : CompanyRecord) (jobs : List Job)
  | companyUpdated (c : CompanyRecord)
  | deleted (handle : String)
deriving DecidableEq

/-- HTTP status of a successful response: 201 for creation, 200 otherwise. -/
def Response.status : Response → Nat
  | Response.created _ => 201
  | _ => 200

deriving instance DecidableEq for Except

/-- Observable outcome of one handler invocation: the response or thrown
error, the persistence calls made, and the store afterwards. -/
structure HOut where
  result : Except AppError Response
  calls : List ModelCall
  store : Store
deriving DecidableEq

/-- `POST /companies` (router.post): auth gate, then body validation against
the new-company schema (throwing `BadRequestError(errs)` on failure), then
`Company.create(req.body)` and a 201 response with the created company. -/
def postCompanies (loggedIn : Bool) (body : CompanyBody) (st : Store) : HOut :=
  match ensureLoggedIn loggedIn with
  | Except.error e => ⟨Except.error e, [], st⟩
  | Except.ok _ =>
    let errs := companyNewValidate body
    if errs.isEmpty then
      match Company.create body st with
      | Except.ok (c, st') => ⟨Except.ok (Response.created c), [ModelCall.create body], st'⟩
      | Except.error e => ⟨Except.error e, [ModelCall.create body], st⟩
    else ⟨Except.error (AppError.badRequest (ErrMsg.list errs)), [], st⟩

/-- One bound of the list route's in-place coercion: `if (req.query.b)` (a
present empty string is falsy and skipped), then `req.query.b = parseInt(...)`
and `if (isNaN(...)) throw new BadRequestError(msg)`. -/
def coerceBound (msg : String) (v : Option String) : Except AppError (Option QueryVal) :=
  match v with
  | none => Except.ok none
  | some s =>
    if s = "" then Except.ok (some (QueryVal.vstr s))
    else match parseIntJS s with
      | some n => Except.ok (some (QueryVal.vnum n))
      | none => Except.error (AppError.badRequest (ErrMsg.str msg))

/-- The list route's coercion of both bounds, `minEmployees` first (its throw
pre-empts the `maxEmployees` check), mutating the query object in place. -/
def listCoerce (q : Query) : Except AppError MQuery :=
  match coerceBound "minEmployees must be a number." q.minEmployees with
  | Except.error e => Except.error e
  | Except.ok mn =>
    match coerceBound "maxEmployees must be a number." q.maxEmployees with
    | Except.error e => Except.error e
    | Except.ok mx => Except.ok ⟨q.nameLike, mn, mx⟩

/-- `GET /companies` (router.get): coerce the bounds in place, validate the
mutated query against the search-filter schema, then
`Company.findAll(req.query)` and a 200 response with the list. -/
def getCompanies (q : Query) (st : Store) : HOut :=
  match listCoerce q with
  | Except.error e => ⟨Except.error e, [], st⟩
  | Except.ok m =>
    let errs := searchFiltersValidate m
    if errs.isEmpty then
      ⟨Except.ok (Response.companyList (Company.findAll m st)), [ModelCall.findAll m], st⟩
    else ⟨Except.error (AppError.badRequest (ErrMsg.list errs)), [], st⟩

/-- `GET /companies/:handle` (router.get "/:handle"): no auth, no validation,
just `Company.get(req.params.handle)` and a 200 response with the company and
its jobs. -/
def getCompanyByHandle (h : String) (st : Store) : HOut :=
  match Company.get h st with
  | Except.ok (c, js) => ⟨Except.ok (Response.companyOne c js), [ModelCall.get h], st⟩
  | Except.error e => ⟨Except.error e, [ModelCall.get h], st⟩

/-- `PATCH /companies/:handle` (router.patch): auth gate, body validation
against the update schema (throwing `BadRequestError(errs)` on failure), then
`Company.update(req.params.handle, req.body)` and a 200 response. -/
def patchCompany (loggedIn : Bool) (h : String) (body : PatchBody) (st : Store) : HOut :=
  match ensureLoggedIn loggedIn with
  | Except.error e => ⟨Except.error e, [], st⟩
  | Except.ok _ =>
    let errs := companyUpdateValidate body
    if errs.isEmpty then
      match Company.update h body st with
      | Except.ok (c, st') => ⟨Except.ok (Response.companyUpdated c), [ModelCall.update h body], st'⟩
      | Except.error e => ⟨Except.error e, [ModelCall.update h body], st⟩
    else ⟨Except.error (AppError.badRequest (ErrMsg.list errs)), [], st⟩

/-- `DELETE /companies/:handle` (router.delete): auth gate, then
`Company.remove(req.params.handle)` and a 200 response
`{ deleted: req.params.handle }`. -/
def deleteCompany (loggedIn : Bool) (h : String) (st : Store) : HOut :=
  match ensureLoggedIn loggedIn with
  | Except.error e => ⟨Except.error e, [], st⟩
  | Except.ok _ =>
    match Company.remove h st with
    | Except.ok st' => ⟨Except.ok (Response.deleted h), [ModelCall.remove h], st'⟩
    | Except.error e => ⟨Except.error e, [ModelCall.remove h], st⟩

/-! ## Fixtures and helper lemmas -/

/-- The empty backing store. -/
def emptyStore : Store := ⟨[], []⟩

/-- A sample company row. -/
def acme : CompanyRecord := ⟨"acme", "Acme", some "Widget maker", some 10, none⟩

/-- A sample job row for `acme`. -/
def acmeJob : Job := ⟨1, "engineer", some 100000, some 0⟩

/-- A store holding one company with one job. -/
def sampleStore : Store := ⟨[acme], [("acme", acmeJob)]⟩

/-- A valid new-company body for `acme`. -/
def newAcmeBody : CompanyBody := ⟨some "acme", some "Acme", none, some 10, none⟩

/-- A valid patch body changing only the name. -/
def namePatch : PatchBody := ⟨none, some "Acme Corp", none, none, none⟩

/-- An invalid patch body carrying a `handle` key (scenario C). -/
def handlePatch : PatchBody := ⟨some "other", none, none, none, none⟩

/-- Whether a bound value survives the coercion step without a throw: absent,
empty (falsy, so the guard skips it), or parseable. -/
def boundCoercionOk (v : Option String) : Bool :=
  match v with
  | none => true
  | some s => s == "" || (parseIntJS s).isSome

lemma any_handle_filter_ne (l : List CompanyRecord) (h : String) :
    ((l.filter fun c => c.handle != h).any fun c => c.handle == h) = false := by
  rw [List.any_eq_false]
  intro c hc
  rw [List.mem_filter] at hc
  simpa using hc.2

lemma listCoerce_ok_inv {q : Query} {m : MQuery} (h : listCoerce q = Except.ok m) :
    m.nameLike = q.nameLike ∧
    coerceBound "minEmployees must be a number." q.minEmployees = Except.ok m.minEmployees ∧
    coerceBound "maxEmployees must be a number." q.maxEmployees = Except.ok m.maxEmployees := by
  unfold listCoerce at h
  cases hmn : coerceBound "minEmployees must be a number." q.minEmployees with
  | error e => rw [hmn] at h; cases h
  | ok mn =>
    rw [hmn] at h
    cases hmx : coerceBound "maxEmployees must be a number." q.maxEmployees with
    | error e => rw [hmx] at h; cases h
    | ok mx =>
      rw [hmx] at h
      cases h
      exact ⟨rfl, rfl, rfl⟩

lemma coerceBound_some_ok_inv {msg s : String} {v : Option QueryVal}
    (h : coerceBound msg (some s) = Except.ok v) :
    (s = "" ∧ v = some (QueryVal.vstr "")) ∨
    (s ≠ "" ∧ ∃ n, parseIntJS s = some n ∧ v = some (QueryVal.vnum n)) := by
  simp only [coerceBound] at h
  by_cases hs : s = ""
  · subst hs
    simp at h
    exact Or.inl ⟨rfl, h.symm⟩
  · rw [if_neg hs] at h
    cases hp : parseIntJS s with
    | none => rw [hp] at h; cases h
    | some n =>
      rw [hp] at h
      cases h
      exact Or.inr ⟨hs, n, rfl, rfl⟩

lemma coerceBound_none_inv {msg : String} {v : Option QueryVal}
    (h : coerceBound msg none = Except.ok v) : v = none := by
  unfold coerceBound at h
  cases h
  rfl

/-! ## Claim theorems -/

/-- C1 (amended): in the list operation, a `minEmployees` query value that is
present and non-empty is parsed with `parseInt` before schema validation; if
the parse fails the handler throws `BadRequest` with exactly the message
"minEmployees must be a number." and `Company.findAll` is never called.  The
same holds for `maxEmployees`, whose check runs once `minEmployees` has
passed its own coercion.  (A present empty-string bound is skipped by the
truthiness guard, so it never produces this message.) -/
theorem C1_bound_coercion (q : Query) (st : Store) (s t : String) :
    (q.minEmployees = some s → s ≠ "" → parseIntJS s = none →
      getCompanies q st =
        ⟨Except.error (AppError.badRequest (ErrMsg.str "minEmployees must be a number.")), [], st⟩) ∧
    (boundCoercionOk q.minEmployees = true → q.maxEmployees = some t → t ≠ "" → parseIntJS t = none →
      getCompanies q st =
        ⟨Except.error (AppError.badRequest (ErrMsg.str "maxEmployees must be a number.")), [], st⟩) := by
  constructor
  · intro hq hs hp
    simp [getCompanies, listCoerce, coerceBound, hq, hs, hp]
  · intro hok hq ht hp
    cases hmn : q.minEmployees with
    | none =>
      simp [getCompanies, listCoerce, coerceBound, hmn, hq, ht, hp]
    | some u =>
      rw [hmn] at hok
      simp [boundCoercionOk, Option.isSome_iff_exists] at hok
      rcases hok with hu | ⟨n, hn⟩
      · subst hu
        simp [getCompanies, listCoerce, coerceBound, hmn, hq, ht, hp]
      · by_cases hu : u = ""
        · subst hu
          simp [getCompanies, listCoerce, coerceBound, hmn, hq, ht, hp]
        · simp [getCompanies, listCoerce, coerceBound, hmn, hq, ht, hp, hu, hn]

/-- C1 counterexample: the claim as stated fails at `minEmployees=""`: the
value is present and non-numeric (`parseInt` would yield `NaN`), yet the
handler does not fail with the message "minEmployees must be a number.",
because the truthiness guard skips the empty string. -/
theorem C1_empty_string_cex :
    (Query.mk none (some "") none).minEmployees = some "" ∧
    parseIntJS "" = none ∧
    (getCompanies ⟨none, some "", none⟩ emptyStore).result ≠
      Except.error (AppError.badRequest (ErrMsg.str "minEmployees must be a number.")) := by
  refine ⟨rfl, rfl, ?_⟩
  decide

/-- Witness for C1: a non-numeric `minEmployees` and, separately, a
non-numeric `maxEmployees` after a numeric `minEmployees`. -/
theorem C1_bound_coercion_witness :
    getCompanies ⟨none, some "abc", none⟩ emptyStore =
      ⟨Except.error (AppError.badRequest (ErrMsg.str "minEmployees must be a number.")), [], emptyStore⟩ ∧
    getCompanies ⟨none, some "3", some "xyz"⟩ emptyStore =
      ⟨Except.error (AppError.badRequest (ErrMsg.str "maxEmployees must be a number.")), [], emptyStore⟩ :=
  ⟨(C1_bound_coercion ⟨none, some "abc", none⟩ emptyStore "abc" "t").1 rfl (by decide) (by decide),
   (C1_bound_coercion ⟨none, some "3", some "xyz"⟩ emptyStore "s" "xyz").2 (by decide) rfl (by decide) (by decide)⟩

/-- C2: every mutating route (POST, PATCH, DELETE) invoked without valid
credentials fails with `Unauthorized` before any body validation or
persistence call, leaving the store unchanged. -/
theorem C2_auth_gate (b : CompanyBody) (h : String) (pb : PatchBody) (st : Store) :
    postCompanies false b st = ⟨Except.error AppError.unauthorized, [], st⟩ ∧
    patchCompany false h pb st = ⟨Except.error AppError.unauthorized, [], st⟩ ∧
    deleteCompany false h st = ⟨Except.error AppError.unauthorized, [], st⟩ :=
  ⟨rfl, rfl, rfl⟩

/-- C3: for `PATCH /companies/:handle` with an authenticated caller, a body
carrying a `handle` key is rejected with `BadRequest` holding the validator
error list before `Company.update` is called; a body that is a subset of
name/description/numEmployees/logoUrl (no field required) passes validation,
`Company.update(handle, patch)` is called, and a successful update is
returned as the updated record with HTTP 200. -/
theorem C3_patch_validation (h : String) (b : PatchBody) (st : Store) :
    (b.handle.isSome = true →
      patchCompany true h b st =
        ⟨Except.error (AppError.badRequest (ErrMsg.list (companyUpdateValidate b))), [], st⟩) ∧
    (b.handle = none →
      (patchCompany true h b st).calls = [ModelCall.update h b] ∧
      ∀ c st', Company.update h b st = Except.ok (c, st') →
        (patchCompany true h b st).result = Except.ok (Response.companyUpdated c) ∧
        Response.status (Response.companyUpdated c) = 200) := by
  constructor
  · intro hb
    simp [patchCompany, ensureLoggedIn, companyUpdateValidate, hb]
  · intro hb
    constructor
    · cases hup : Company.update h b st with
      | ok p => simp [patchCompany, ensureLoggedIn, companyUpdateValidate, hb, hup]
      | error e => simp [patchCompany, ensureLoggedIn, companyUpdateValidate, hb, hup]
    · intro c st' hup
      simp [patchCompany, ensureLoggedIn, companyUpdateValidate, hb, hup, Response.status]

/-- Witness for C3: scenario C's `{handle:"other"}` body is rejected without
an update call, while a name-only patch updates `acme` and returns 200. -/
theorem C3_patch_validation_witness :
    patchCompany true "acme" handlePatch sampleStore =
      ⟨Except.error (AppError.badRequest (ErrMsg.list (companyUpdateValidate handlePatch))), [], sampleStore⟩ ∧
    (patchCompany true "acme" namePatch sampleStore).calls = [ModelCall.update "acme" namePatch] ∧
    (patchCompany true "acme" namePatch sampleStore).result =
      Except.ok (Response.companyUpdated (applyPatch namePatch acme)) ∧
    Response.status (Response.companyUpdated (applyPatch namePatch acme)) = 200 := by
  have h1 := (C3_patch_validation "acme" handlePatch sampleStore).1 rfl
  have h2 := (C3_patch_validation "acme" namePatch sampleStore).2 rfl
  have h3 := h2.2 (applyPatch namePatch acme) ⟨[applyPatch namePatch acme], sampleStore.jobs⟩ (by decide)
  exact ⟨h1, h2.1, h3.1, h3.2⟩

/-- C4: when both bounds are present, numeric, and `minEmployees >
maxEmployees`, the list handler does not reject the request: no cross-field
check exists, and the filters are passed unchanged to `Company.findAll`. -/
theorem C4_no_cross_field_check (nl : Option String) (s t : String) (m n : Int) (st : Store)
    (hs : s ≠ "") (ht : t ≠ "") (hps : parseIntJS s = some m) (hpt : parseIntJS t = some n)
    (hm0 : 0 ≤ m) (hn0 : 0 ≤ n) (_hgt : n < m) :
    getCompanies ⟨nl, some s, some t⟩ st =
      ⟨Except.ok (Response.companyList
          (Company.findAll ⟨nl, some (QueryVal.vnum m), some (QueryVal.vnum n)⟩ st)),
        [ModelCall.findAll ⟨nl, some (QueryVal.vnum m), some (QueryVal.vnum n)⟩], st⟩ := by
  simp [getCompanies, listCoerce, coerceBound, hs, ht, hps, hpt,
    searchFiltersValidate, boundTypeErrors, not_lt.2 hm0, not_lt.2 hn0]

/-- Witness for C4: `minEmployees=10&maxEmployees=5` reaches `findAll`. -/
theorem C4_no_cross_field_check_witness :
    getCompanies ⟨none, some "10", some "5"⟩ sampleStore =
      ⟨Except.ok (Response.companyList
          (Company.findAll ⟨none, some (QueryVal.vnum 10), some (QueryVal.vnum 5)⟩ sampleStore)),
        [ModelCall.findAll ⟨none, some (QueryVal.vnum 10), some (QueryVal.vnum 5)⟩], sampleStore⟩ :=
  C4_no_cross_field_check none "10" "5" 10 5 sampleStore (by decide) (by decide)
    (by decide) (by decide) (by decide) (by decide) (by decide)

/-- C5: for `POST /companies` with an authenticated caller, a body violating
the new-company schema produces `BadRequest` holding the ordered validator
error list and `Company.create` is not called; a valid body is passed to
`Company.create(body)` and a successful creation is returned as the created
record with HTTP 201. -/
theorem C5_post_validation (b : CompanyBody) (st : Store) :
    (companyNewValidate b ≠ [] →
      postCompanies true b st =
        ⟨Except.error (AppError.badRequest (ErrMsg.list (companyNewValidate b))), [], st⟩) ∧
    (companyNewValidate b = [] →
      (postCompanies true b st).calls = [ModelCall.create b] ∧
      ∀ c st', Company.create b st = Except.ok (c, st') →
        (postCompanies true b st).result = Except.ok (Response.created c) ∧
        Response.status (Response.created c) = 201) := by
  constructor
  · intro hb
    have hb' : (companyNewValidate b).isEmpty = false := by
      cases hcv : companyNewValidate b with
      | nil => exact absurd hcv hb
      | cons x xs => rfl
    simp [postCompanies, ensureLoggedIn, hb']
  · intro hb
    have hb' : (companyNewValidate b).isEmpty = true := by rw [hb]; rfl
    constructor
    · cases hc : Company.create b st with
      | ok p => simp [postCompanies, ensureLoggedIn, hb', hc]
      | error e => simp [postCompanies, ensureLoggedIn, hb', hc]
    · intro c st' hc
      simp [postCompanies, ensureLoggedIn, hb', hc, Response.status]

/-- Witness for C5: a body missing `handle` and `name` is rejected with the
two validator messages and no create call; scenario A's body creates `acme`
with status 201. -/
theorem C5_post_validation_witness :
    postCompanies true ⟨none, none, none, none, none⟩ emptyStore =
      ⟨Except.error (AppError.badRequest (ErrMsg.list
          (companyNewValidate ⟨none, none, none, none, none⟩))), [], emptyStore⟩ ∧
    (postCompanies true newAcmeBody emptyStore).calls = [ModelCall.create newAcmeBody] ∧
    (postCompanies true newAcmeBody emptyStore).result =
      Except.ok (Response.created newAcmeBody.toRecord) ∧
    Response.status (Response.created newAcmeBody.toRecord) = 201 := by
  have h1 := (C5_post_validation ⟨none, none, none, none, none⟩ emptyStore).1 (by decide)
  have h2 := (C5_post_validation newAcmeBody emptyStore).2 rfl
  have h3 := h2.2 newAcmeBody.toRecord ⟨[newAcmeBody.toRecord], []⟩ (by decide)
  exact ⟨h1, h2.1, h3.1, h3.2⟩

/-- C6: `GET /companies/:handle` performs no authorization check and no input
validation: it calls `Company.get(handle)` directly, returns the company with
its jobs and HTTP 200 on success, and propagates the persistence failure
(`NotFound`) unchanged. -/
theorem C6_get_by_handle (h : String) (st : Store) :
    (getCompanyByHandle h st).calls = [ModelCall.get h] ∧
    (getCompanyByHandle h st).store = st ∧
    (getCompanyByHandle h st).result ≠ Except.error AppError.unauthorized ∧
    (∀ m, (getCompanyByHandle h st).result ≠ Except.error (AppError.badRequest m)) ∧
    (∀ c js, Company.get h st = Except.ok (c, js) →
      (getCompanyByHandle h st).result = Except.ok (Response.companyOne c js) ∧
      Response.status (Response.companyOne c js) = 200) ∧
    (∀ e, Company.get h st = Except.error e → (getCompanyByHandle h st).result = Except.error e) := by
  refine ⟨?_, ?_, ?_, ?_, ?_, ?_⟩
  · cases hg : Company.get h st with
    | ok p => simp [getCompanyByHandle, hg]
    | error e => simp [getCompanyByHandle, hg]
  · cases hg : Company.get h st with
    | ok p => simp [getCompanyByHandle, hg]
    | error e => simp [getCompanyByHandle, hg]
  · cases hg : Company.get h st with
    | ok p => simp [getCompanyByHandle, hg]
    | error e =>
      have he : e = AppError.notFound := by
        simp only [Company.get] at hg
        cases hf : st.companies.find? (fun c => c.handle == h) with
        | some c => rw [hf] at hg; cases hg
        | none => rw [hf] at hg; cases hg; rfl
      subst he
      simp [getCompanyByHandle, hg]
  · intro m
    cases hg : Company.get h st with
    | ok p => simp [getCompanyByHandle, hg]
    | error e =>
      have he : e = AppError.notFound := by
        simp only [Company.get] at hg
        cases hf : st.companies.find? (fun c => c.handle == h) with
        | some c => rw [hf] at hg; cases hg
        | none => rw [hf] at hg; cases hg; rfl
      subst he
      simp [getCompanyByHandle, hg]
  · intro c js hg
    simp [getCompanyByHandle, hg, Response.status]
  · intro e hg
    simp [getCompanyByHandle, hg]

/-- Witness for C6: fetching `acme` returns it with its jobs and 200;
fetching `ghost` propagates `NotFound`. -/
theorem C6_get_by_handle_witness :
    (getCompanyByHandle "acme" sampleStore).result =
      Except.ok (Response.companyOne acme [acmeJob]) ∧
    Response.status (Response.companyOne acme [acmeJob]) = 200 ∧
    (getCompanyByHandle "ghost" sampleStore).result = Except.error AppError.notFound := by
  have h1 := ((C6_get_by_handle "acme" sampleStore).2.2.2.2.1 acme [acmeJob]) (by decide)
  have h2 := ((C6_get_by_handle "ghost" sampleStore).2.2.2.2.2 AppError.notFound) (by decide)
  exact ⟨h1.1, h1.2, h2⟩

/-- C7: `DELETE /companies/:handle` with an authenticated caller calls
`Company.remove(handle)`; an existing handle is deleted and `{deleted:
handle}` is returned with HTTP 200, a missing handle propagates `NotFound`
with no state change, and deleting the same handle again always yields
`NotFound`, never a silent success. -/
theorem C7_delete_semantics (h : String) (st : Store) :
    (deleteCompany true h st).calls = [ModelCall.remove h] ∧
    ((st.companies.any fun c => c.handle == h) = true →
      (deleteCompany true h st).result = Except.ok (Response.deleted h) ∧
      Response.status (Response.deleted h) = 200) ∧
    ((st.companies.any fun c => c.handle == h) = false →
      deleteCompany true h st = ⟨Except.error AppError.notFound, [ModelCall.remove h], st⟩) ∧
    (deleteCompany true h (deleteCompany true h st).store).result = Except.error AppError.notFound := by
  refine ⟨?_, ?_, ?_, ?_⟩
  · by_cases ha : (st.companies.any fun c => c.handle == h) = true
    · simp [deleteCompany, ensureLoggedIn, Company.remove, ha]
    · simp [deleteCompany, ensureLoggedIn, Company.remove, ha]
  · intro ha
    simp [deleteCompany, ensureLoggedIn, Company.remove, ha, Response.status]
  · intro ha
    simp [deleteCompany, ensureLoggedIn, Company.remove, ha]
  · by_cases ha : (st.companies.any fun c => c.handle == h) = true
    · have hst : (deleteCompany true h st).store =
          ⟨st.companies.filter fun c => c.handle != h, st.jobs⟩ := by
        simp [deleteCompany, ensureLoggedIn, Company.remove, ha]
      rw [hst]
      simp [deleteCompany, ensureLoggedIn, Company.remove, any_handle_filter_ne]
    · have ha' : (st.companies.any fun c => c.handle == h) = false := by
        cases hv : st.companies.any fun c => c.handle == h
        · rfl
        · exact absurd hv ha
      have hst : (deleteCompany true h st).store = st := by
        simp [deleteCompany, ensureLoggedIn, Company.remove, ha']
      rw [hst]
      simp [deleteCompany, ensureLoggedIn, Company.remove, ha']

/-- Witness for C7: deleting `acme` succeeds with 200; deleting `ghost`
yields `NotFound` and leaves the store unchanged. -/
theorem C7_delete_semantics_witness :
    (deleteCompany true "acme" sampleStore).result = Except.ok (Response.deleted "acme") ∧
    Response.status (Response.deleted "acme") = 200 ∧
    deleteCompany true "ghost" sampleStore =
      ⟨Except.error AppError.notFound, [ModelCall.remove "ghost"], sampleStore⟩ := by
  have h1 := (C7_delete_semantics "acme" sampleStore).2.1 (by decide)
  have h2 := (C7_delete_semantics "ghost" sampleStore).2.2.1 (by decide)
  exact ⟨h1.1, h1.2, h2⟩

/-- C8: every failure from validation, authorization, or persistence
propagates to the hosting error-response mechanism unchanged in kind, with no
local recovery and no internal retry (each invocation makes at most one
persistence call), and on failure no handler changes the store. -/
theorem C8_error_propagation (lg : Bool) (nb : CompanyBody) (pb : PatchBody) (q : Query)
    (h : String) (st : Store) (e : AppError) :
    ((postCompanies lg nb st).result.isOk = false → (postCompanies lg nb st).store = st) ∧
    (getCompanies q st).store = st ∧
    (getCompanyByHandle h st).store = st ∧
    ((patchCompany lg h pb st).result.isOk = false → (patchCompany lg h pb st).store = st) ∧
    ((deleteCompany lg h st).result.isOk = false → (deleteCompany lg h st).store = st) ∧
    (companyNewValidate nb = [] → Company.create nb st = Except.error e →
      (postCompanies true nb st).result = Except.error e) ∧
    (Company.get h st = Except.error e → (getCompanyByHandle h st).result = Except.error e) ∧
    (companyUpdateValidate pb = [] → Company.update h pb st = Except.error e →
      (patchCompany true h pb st).result = Except.error e) ∧
    (Company.remove h st = Except.error e →
      (deleteCompany true h st).result = Except.error e) ∧
    (postCompanies lg nb st).calls.length ≤ 1 ∧
    (getCompanies q st).calls.length ≤ 1 ∧
    (getCompanyByHandle h st).calls.length ≤ 1 ∧
    (patchCompany lg h pb st).calls.length ≤ 1 ∧
    (deleteCompany lg h st).calls.length ≤ 1 := by
  refine ⟨?_, ?_, ?_, ?_, ?_, ?_, ?_, ?_, ?_, ?_, ?_, ?_, ?_, ?_⟩
  · cases lg with
    | false => intro _; rfl
    | true =>
      cases hv : (companyNewValidate nb).isEmpty with
      | false => simp [postCompanies, ensureLoggedIn, hv]
      | true =>
        cases hc : Company.create nb st with
        | ok p =>
          simp only [postCompanies, ensureLoggedIn, hv, hc]
          intro hfalse
          simp [Except.isOk, Except.toBool] at hfalse
        | error er => simp [postCompanies, ensureLoggedIn, hv, hc]
  · cases hl : listCoerce q with
    | error er => simp [getCompanies, hl]
    | ok m =>
      cases hv : (searchFiltersValidate m).isEmpty with
      | false => simp [getCompanies, hl, hv]
      | true => simp [getCompanies, hl, hv]
  · cases hg : Company.get h st with
    | ok p => simp [getCompanyByHandle, hg]
    | error er => simp [getCompanyByHandle, hg]
  · cases lg with
    | false => intro _; rfl
    | true =>
      cases hv : (companyUpdateValidate pb).isEmpty with
      | false => simp [patchCompany, ensureLoggedIn, hv]
      | true =>
        cases hu : Company.update h pb st with
        | ok p =>
          simp only [patchCompany, ensureLoggedIn, hv, hu]
          intro hfalse
          simp [Except.isOk, Except.toBool] at hfalse
        | error er => simp [patchCompany, ensureLoggedIn, hv, hu]
  · cases lg with
    | false => intro _; rfl
    | true =>
      cases hr : Company.remove h st with
      | ok st' =>
        simp only [deleteCompany, ensureLoggedIn, hr]
        intro hfalse
        simp [Except.isOk, Except.toBool] at hfalse
      | error er => simp [deleteCompany, ensureLoggedIn, hr]
  · intro hv hc
    have hv' : (companyNewValidate nb).isEmpty = true := by rw [hv]; rfl
    simp [postCompanies, ensureLoggedIn, hv', hc]
  · intro hg
    simp [getCompanyByHandle, hg]
  · intro hv hu
    have hv' : (companyUpdateValidate pb).isEmpty = true := by rw [hv]; rfl
    simp [patchCompany, ensureLoggedIn, hv', hu]
  · intro hr
    simp [deleteCompany, ensureLoggedIn, hr]
  · cases lg with
    | false => exact Nat.le_of_eq rfl |>.trans (by simp [postCompanies, ensureLoggedIn])
    | true =>
      cases hv : (companyNewValidate nb).isEmpty with
      | false => simp [postCompanies, ensureLoggedIn, hv]
      | true =>
        cases hc : Company.create nb st with
        | ok p => simp [postCompanies, ensureLoggedIn, hv, hc]
        | error er => simp [postCompanies, ensureLoggedIn, hv, hc]
  · cases hl : listCoerce q with
    | error er => simp [getCompanies, hl]
    | ok m =>
      cases hv : (searchFiltersValidate m).isEmpty with
      | false => simp [getCompanies, hl, hv]
      | true => simp [getCompanies, hl, hv]
  · cases hg : Company.get h st with
    | ok p => simp [getCompanyByHandle, hg]
    | error er => simp [getCompanyByHandle, hg]
  · cases lg with
    | false => simp [patchCompany, ensureLoggedIn]
    | true =>
      cases hv : (companyUpdateValidate pb).isEmpty with
      | false => simp [patchCompany, ensureLoggedIn, hv]
      | true =>
        cases hu : Company.update h pb st with
        | ok p => simp [patchCompany, ensureLoggedIn, hv, hu]
        | error er => simp [patchCompany, ensureLoggedIn, hv, hu]
  · cases lg with
    | false => simp [deleteCompany, ensureLoggedIn]
    | true =>
      cases hr : Company.remove h st with
      | ok st' => simp [deleteCompany, ensureLoggedIn, hr]
      | error er => simp [deleteCompany, ensureLoggedIn, hr]

/-- Witness for C8: a duplicate-handle create propagates `Conflict` with the
store unchanged; fetch, patch and delete of `ghost` propagate `NotFound`; the
list invocation makes at most one persistence call. -/
theorem C8_error_propagation_witness :
    (postCompanies true newAcmeBody sampleStore).result = Except.error AppError.conflict ∧
    (postCompanies true newAcmeBody sampleStore).store = sampleStore ∧
    (getCompanyByHandle "ghost" sampleStore).result = Except.error AppError.notFound ∧
    (patchCompany true "ghost" namePatch sampleStore).result = Except.error AppError.notFound ∧
    (deleteCompany true "ghost" sampleStore).result = Except.error AppError.notFound ∧
    (getCompanies ⟨none, none, none⟩ sampleStore).calls.length ≤ 1 := by
  have hc := C8_error_propagation true newAcmeBody namePatch ⟨none, none, none⟩ "ghost"
    sampleStore AppError.conflict
  have hn := C8_error_propagation true newAcmeBody namePatch ⟨none, none, none⟩ "ghost"
    sampleStore AppError.notFound
  refine ⟨?_, ?_, ?_, ?_, ?_, ?_⟩
  · exact hc.2.2.2.2.2.1 rfl (by decide)
  · exact hc.1 (by decide)
  · exact hn.2.2.2.2.2.2.1 (by decide)
  · exact hn.2.2.2.2.2.2.2.1 rfl (by decide)
  · exact hn.2.2.2.2.2.2.2.2.1 (by decide)
  · exact hn.2.2.2.2.2.2.2.2.2.2.1

/-- C9 (implicit): a `minEmployees` or `maxEmployees` bound whose text starts
with an integer, such as "12abc", is not rejected by the coercion step:
`parseInt` yields the integer of that leading run, which is used as the
bound, and each bound's "must be a number." coercion message arises exactly
for present, non-empty values whose `parseInt` result is `NaN`. -/
theorem C9_truncated_integer (s : String) (n : Int) (st : Store) :
    parseIntJS "12abc" = some 12 ∧
    (s ≠ "" → parseIntJS s = some n →
      listCoerce ⟨none, some s, none⟩ = Except.ok ⟨none, some (QueryVal.vnum n), none⟩ ∧
      (getCompanies ⟨none, some s, none⟩ st).result ≠
        Except.error (AppError.badRequest (ErrMsg.str "minEmployees must be a number.")) ∧
      (0 ≤ n →
        (getCompanies ⟨none, some s, none⟩ st).calls =
          [ModelCall.findAll ⟨none, some (QueryVal.vnum n), none⟩])) ∧
    ((getCompanies ⟨none, some s, none⟩ st).result =
        Except.error (AppError.badRequest (ErrMsg.str "minEmployees must be a number.")) ↔
      s ≠ "" ∧ parseIntJS s = none) ∧
    (s ≠ "" → parseIntJS s = some n →
      listCoerce ⟨none, none, some s⟩ = Except.ok ⟨none, none, some (QueryVal.vnum n)⟩ ∧
      (getCompanies ⟨none, none, some s⟩ st).result ≠
        Except.error (AppError.badRequest (ErrMsg.str "maxEmployees must be a number.")) ∧
      (0 ≤ n →
        (getCompanies ⟨none, none, some s⟩ st).calls =
          [ModelCall.findAll ⟨none, none, some (QueryVal.vnum n)⟩])) ∧
    ((getCompanies ⟨none, none, some s⟩ st).result =
        Except.error (AppError.badRequest (ErrMsg.str "maxEmployees must be a number.")) ↔
      s ≠ "" ∧ parseIntJS s = none) := by
  refine ⟨by decide, ?_, ?_, ?_, ?_⟩
  · intro hs hp
    refine ⟨by simp [listCoerce, coerceBound, hs, hp], ?_, ?_⟩
    · by_cases hn0 : n < 0
      · simp [getCompanies, listCoerce, coerceBound, hs, hp,
          searchFiltersValidate, boundTypeErrors, hn0]
      · simp [getCompanies, listCoerce, coerceBound, hs, hp,
          searchFiltersValidate, boundTypeErrors, hn0]
    · intro hn0
      simp [getCompanies, listCoerce, coerceBound, hs, hp,
        searchFiltersValidate, boundTypeErrors, not_lt.2 hn0]
  · constructor
    · intro hres
      by_cases hs : s = ""
      · subst hs
        simp [getCompanies, listCoerce, coerceBound,
          searchFiltersValidate, boundTypeErrors] at hres
      · cases hp : parseIntJS s with
        | none => exact ⟨hs, rfl⟩
        | some k =>
          by_cases hk0 : k < 0
          · simp [getCompanies, listCoerce, coerceBound, hs, hp,
              searchFiltersValidate, boundTypeErrors, hk0] at hres
          · simp [getCompanies, listCoerce, coerceBound, hs, hp,
              searchFiltersValidate, boundTypeErrors, hk0] at hres
    · intro ⟨hs, hp⟩
      simp [getCompanies, listCoerce, coerceBound, hs, hp]
  · intro hs hp
    refine ⟨by simp [listCoerce, coerceBound, hs, hp], ?_, ?_⟩
    · by_cases hn0 : n < 0
      · simp [getCompanies, listCoerce, coerceBound, hs, hp,
          searchFiltersValidate, boundTypeErrors, hn0]
      · simp [getCompanies, listCoerce, coerceBound, hs, hp,
          searchFiltersValidate, boundTypeErrors, hn0]
    · intro hn0
      simp [getCompanies, listCoerce, coerceBound, hs, hp,
        searchFiltersValidate, boundTypeErrors, not_lt.2 hn0]
  · constructor
    · intro hres
      by_cases hs : s = ""
      · subst hs
        simp [getCompanies, listCoerce, coerceBound,
          searchFiltersValidate, boundTypeErrors] at hres
      · cases hp : parseIntJS s with
        | none => exact ⟨hs, rfl⟩
        | some k =>
          by_cases hk0 : k < 0
          · simp [getCompanies, listCoerce, coerceBound, hs, hp,
              searchFiltersValidate, boundTypeErrors, hk0] at hres
          · simp [getCompanies, listCoerce, coerceBound, hs, hp,
              searchFiltersValidate, boundTypeErrors, hk0] at hres
    · intro ⟨hs, hp⟩
      simp [getCompanies, listCoerce, coerceBound, hs, hp]

/-- Witness for C9: both `minEmployees=12abc` and `maxEmployees=12abc` pass
coercion with the truncated bound 12 and reach `findAll` without either
coercion message. -/
theorem C9_truncated_integer_witness :
    listCoerce ⟨none, some "12abc", none⟩ =
      Except.ok ⟨none, some (QueryVal.vnum 12), none⟩ ∧
    (getCompanies ⟨none, some "12abc", none⟩ sampleStore).result ≠
      Except.error (AppError.badRequest (ErrMsg.str "minEmployees must be a number.")) ∧
    (getCompanies ⟨none, some "12abc", none⟩ sampleStore).calls =
      [ModelCall.findAll ⟨none, some (QueryVal.vnum 12), none⟩] ∧
    listCoerce ⟨none, none, some "12abc"⟩ =
      Except.ok ⟨none, none, some (QueryVal.vnum 12)⟩ ∧
    (getCompanies ⟨none, none, some "12abc"⟩ sampleStore).result ≠
      Except.error (AppError.badRequest (ErrMsg.str "maxEmployees must be a number.")) ∧
    (getCompanies ⟨none, none, some "12abc"⟩ sampleStore).calls =
      [ModelCall.findAll ⟨none, none, some (QueryVal.vnum 12)⟩] := by
  have h := (C9_truncated_integer "12abc" 12 sampleStore).2.1 (by decide) (by decide)
  have h' := (C9_truncated_integer "12abc" 12 sampleStore).2.2.2.1 (by decide) (by decide)
  exact ⟨h.1, h.2.1, h.2.2 (by decide), h'.1, h'.2.1, h'.2.2 (by decide)⟩

/-- C10 (implicit): the list handler mutates the query object in place: when
coercion and schema validation succeed, `Company.findAll` receives exactly
the request's query object with any present bounds replaced by their coerced
integers (and the empty object when no filters were given); a bound supplied
as the empty string is skipped by the truthiness guard and never produces the
coercion's "must be a number." `BadRequest`. -/
theorem C10_inplace_mutation (q : Query) (st : Store) (m : MQuery) :
    (listCoerce q = Except.ok m → searchFiltersValidate m = [] →
      (getCompanies q st).calls = [ModelCall.findAll m] ∧
      (getCompanies q st).result = Except.ok (Response.companyList (Company.findAll m st)) ∧
      m.nameLike = q.nameLike ∧
      (q.minEmployees = none → m.minEmployees = none) ∧
      (∀ s, q.minEmployees = some s → s ≠ "" →
        ∃ n, parseIntJS s = some n ∧ m.minEmployees = some (QueryVal.vnum n)) ∧
      (q.minEmployees = some "" → m.minEmployees = some (QueryVal.vstr "")) ∧
      (q.maxEmployees = none → m.maxEmployees = none) ∧
      (∀ t, q.maxEmployees = some t → t ≠ "" →
        ∃ n, parseIntJS t = some n ∧ m.maxEmployees = some (QueryVal.vnum n)) ∧
      (q.maxEmployees = some "" → m.maxEmployees = some (QueryVal.vstr ""))) ∧
    (getCompanies ⟨none, none, none⟩ st).calls = [ModelCall.findAll ⟨none, none, none⟩] ∧
    (q.minEmployees = some "" →
      (getCompanies q st).result ≠
        Except.error (AppError.badRequest (ErrMsg.str "minEmployees must be a number."))) ∧
    (q.maxEmployees = some "" →
      (getCompanies q st).result ≠
        Except.error (AppError.badRequest (ErrMsg.str "maxEmployees must be a number."))) := by
  refine ⟨?_, ?_, ?_, ?_⟩
  · intro hl hv
    have hv' : (searchFiltersValidate m).isEmpty = true := by rw [hv]; rfl
    obtain ⟨hnl, hmn, hmx⟩ := listCoerce_ok_inv hl
    refine ⟨by simp [getCompanies, hl, hv'], by simp [getCompanies, hl, hv'], hnl,
      ?_, ?_, ?_, ?_, ?_, ?_⟩
    · intro hq
      rw [hq] at hmn
      exact coerceBound_none_inv hmn
    · intro s hq hs
      rw [hq] at hmn
      rcases coerceBound_some_ok_inv hmn with ⟨he, _⟩ | ⟨_, n, hn, hm⟩
      · exact absurd he hs
      · exact ⟨n, hn, hm.symm ▸ rfl⟩
    · intro hq
      rw [hq] at hmn
      rcases coerceBound_some_ok_inv hmn with ⟨_, hm⟩ | ⟨hne, _⟩
      · exact hm.symm ▸ rfl
      · exact absurd rfl hne
    · intro hq
      rw [hq] at hmx
      exact coerceBound_none_inv hmx
    · intro t hq ht
      rw [hq] at hmx
      rcases coerceBound_some_ok_inv hmx with ⟨he, _⟩ | ⟨_, n, hn, hm⟩
      · exact absurd he ht
      · exact ⟨n, hn, hm.symm ▸ rfl⟩
    · intro hq
      rw [hq] at hmx
      rcases coerceBound_some_ok_inv hmx with ⟨_, hm⟩ | ⟨hne, _⟩
      · exact hm.symm ▸ rfl
      · exact absurd rfl hne
  · simp [getCompanies, listCoerce, coerceBound, searchFiltersValidate, boundTypeErrors,
      Company.findAll]
  · intro hq
    cases hmx : q.maxEmployees with
    | none =>
      simp [getCompanies, listCoerce, coerceBound, hq, hmx,
        searchFiltersValidate, boundTypeErrors]
    | some t =>
      by_cases ht : t = ""
      · subst ht
        simp [getCompanies, listCoerce, coerceBound, hq, hmx,
          searchFiltersValidate, boundTypeErrors]
      · cases hpt : parseIntJS t with
        | none =>
          simp [getCompanies, listCoerce, coerceBound, hq, hmx, ht, hpt]
        | some n =>
          simp [getCompanies, listCoerce, coerceBound, hq, hmx, ht, hpt,
            searchFiltersValidate, boundTypeErrors]
  · intro hq
    cases hmn : q.minEmployees with
    | none =>
      simp [getCompanies, listCoerce, coerceBound, hq, hmn,
        searchFiltersValidate, boundTypeErrors]
    | some s =>
      by_cases hs : s = ""
      · subst hs
        simp [getCompanies, listCoerce, coerceBound, hq, hmn,
          searchFiltersValidate, boundTypeErrors]
      · cases hps : parseIntJS s with
        | none =>
          simp [getCompanies, listCoerce, coerceBound, hq, hmn, hs, hps]
        | some n =>
          by_cases hn0 : n < 0
          · simp [getCompanies, listCoerce, coerceBound, hq, hmn, hs, hps,
              searchFiltersValidate, boundTypeErrors, hn0]
          · simp [getCompanies, listCoerce, coerceBound, hq, hmn, hs, hps,
              searchFiltersValidate, boundTypeErrors, hn0]

/-- Witness for C10: `nameLike=ac&minEmployees=5&maxEmployees=20` reaches
`findAll` as the same object with both bounds as integers, and empty-string
bounds never produce the coercion messages. -/
theorem C10_inplace_mutation_witness :
    (getCompanies ⟨some "ac", some "5", some "20"⟩ sampleStore).calls =
      [ModelCall.findAll ⟨some "ac", some (QueryVal.vnum 5), some (QueryVal.vnum 20)⟩] ∧
    (getCompanies ⟨none, none, none⟩ sampleStore).calls = [ModelCall.findAll ⟨none, none, none⟩] ∧
    (getCompanies ⟨none, some "", some ""⟩ sampleStore).result ≠
      Except.error (AppError.badRequest (ErrMsg.str "minEmployees must be a number.")) ∧
    (getCompanies ⟨none, some "", some ""⟩ sampleStore).result ≠
      Except.error (AppError.badRequest (ErrMsg.str "maxEmployees must be a number.")) := by
  have h1 := C10_inplace_mutation ⟨some "ac", some "5", some "20"⟩ sampleStore
    ⟨some "ac", some (QueryVal.vnum 5), some (QueryVal.vnum 20)⟩
  have h2 := C10_inplace_mutation ⟨none, some "", some ""⟩ sampleStore
    ⟨none, some (QueryVal.vstr ""), some (QueryVal.vstr "")⟩
  exact ⟨(h1.1 (by decide) (by decide)).1, (h1.2.1 : _), h2.2.2.1 rfl, h2.2.2.2 rfl⟩

end Jobly
